import Mathlib

/-!
Verification of the task-manager CLI (src/main.py) against its
natural-language specification.

Modelling conventions (shallow embedding of the Python source):
  * ISO-8601 date strings are modelled as integer timestamps in seconds
    (parsing/printing is monotone and injective on valid dates, and the
    program only ever compares dates and adds whole days, so the integer
    model is faithful); one day is 86400 s, one hour 3600 s.
  * Python `float` `effort_hours` is carried as an opaque integer; no
    claim depends on its arithmetic.
  * `uuid.uuid4()` is modelled by an explicit stream of fresh id strings
    supplied as an argument (`Nat → String` for the recurrence sweep,
    a plain `String` elsewhere).
  * A Python dict keyed by task id is modelled as an insertion-ordered
    association list (`List (String × Task)`), matching CPython dict
    semantics: inserting an existing key replaces the value in place,
    a new key is appended.
  * An uncaught Python exception is modelled as a `some errMsg` marker
    returned next to the state reached at the point the exception was
    raised (in-memory mutations made before the raise are kept, exactly
    as in CPython).
-/

namespace TaskModel

/-- One day in seconds (`timedelta(days=1)`). -/
def oneDay : Int := 86400

/-- The `Task` dataclass of src/main.py (lines 31-44). -/
structure Task where
  id : String
  title : String
  description : String
  priority : String
  due_date : Int
  category : String
  completed : Bool
  created_at : Int
  progress : Int
  effort_hours : Int
  dependencies : List String
  recurring : String
deriving DecidableEq

/-- A record appended to `milestone_history`: either a task-completion
dict (keys `task_id, title, points, achieved_at, priority_bonus,
timeliness_bonus`) or a milestone dict (keys `milestone, achieved_at`). -/
inductive HistoryEntry where
  | completion (task_id : String) (title : String) (points : Int)
      (achieved_at : Int) (priority_bonus : Int) (timeliness_bonus : Int)
  | milestone (value : Int) (achieved_at : Int)
deriving DecidableEq

/-- The `User` dataclass of src/main.py (lines 46-53). -/
structure User where
  username : String
  password_hash : String
  tasks : List Task
  points : Int
  avatar : String
  milestone_history : List HistoryEntry
deriving DecidableEq

/-- `next((t for t in tasks if t.id == task_id), None)`. -/
def findTask (tasks : List Task) (task_id : String) : Option Task :=
  tasks.find? (fun t => t.id == task_id)

/-- Mutating the first task object with the given id in place
(Python mutates the object returned by `next`, which is the first
list element with that id). -/
def updateFirst (tasks : List Task) (task_id : String) (f : Task → Task) : List Task :=
  match tasks with
  | [] => []
  | t :: rest =>
    if t.id == task_id then f t :: rest else t :: updateFirst rest task_id f

/-- `TaskManager._calculate_points` (src/main.py lines 353-357). -/
def _calculate_points (now : Int) (task : Task) : Int :=
  let base_points : Int := 10
  let priority_bonus : Int := if task.priority == "high" then 5 else 0
  let timeliness_bonus : Int := if now ≤ task.due_date then 5 else 0
  base_points + priority_bonus + timeliness_bonus

/-- The completion record appended by `toggle_complete`
(src/main.py lines 335-342). -/
def completionRecord (now : Int) (task : Task) : HistoryEntry :=
  .completion task.id task.title (_calculate_points now task) now
    (if task.priority == "high" then 5 else 0)
    (if now ≤ task.due_date then 5 else 0)

/-- Whether a history dict has the key `"milestone"`. -/
def hasMilestoneKey : HistoryEntry → Bool
  | .milestone _ _ => true
  | .completion _ _ _ _ _ _ => false

/-- Python `m["points"]` on a history dict: completion records carry the
key, milestone records do not and raise `KeyError: 'points'`. -/
def entryPoints : HistoryEntry → Except String Int
  | .completion _ _ p _ _ _ => .ok p
  | .milestone _ _ => .error "KeyError: points"

/-- The generator expression
`any(m["points"] == 50 for m in milestone_history if "milestone" in m)`
of src/main.py line 343, with Python lazy-`any` semantics: records
without the `"milestone"` key are skipped; on a record that has it,
`m["points"]` is evaluated and raises `KeyError` (milestone records
have no `"points"` key). -/
def anyPointsEq50 : List HistoryEntry → Except String Bool
  | [] => .ok false
  | e :: rest =>
    if hasMilestoneKey e then
      match entryPoints e with
      | .error msg => .error msg
      | .ok p => if p == 50 then .ok true else anyPointsEq50 rest
    else anyPointsEq50 rest

/-- Line 331: `task.completed = not task.completed`. -/
def flipCompleted (t : Task) : Task :=
  { t with completed := !t.completed }

/-- `TaskManager.toggle_complete` (src/main.py lines 325-351), in-memory
effect on the current user.  Returns the user state reached together
with `some errMsg` when the milestone duplicate-check raised an uncaught
`KeyError` (the mutations made before the raise are kept, as in CPython;
the exception then aborts the session).  Both clock reads inside the
operation are modelled as the same instant `now`. -/
def toggle_complete (now : Int) (task_id : String) (u : User) : User × Option String :=
  match findTask u.tasks task_id with
  | none => (u, none)
  | some task =>
    let tasks' := updateFirst u.tasks task_id flipCompleted
    if !task.completed then
      let points_earned := _calculate_points now task
      let points' := u.points + points_earned
      let history' := u.milestone_history ++ [completionRecord now task]
      if 50 ≤ points' then
        match anyPointsEq50 history' with
        | .error msg =>
          ({ u with tasks := tasks', points := points', milestone_history := history' }, some msg)
        | .ok b =>
          if !b then
            ({ u with tasks := tasks', points := points', milestone_history := history' ++ [.milestone 50 now] }, none)
          else
            ({ u with tasks := tasks', points := points', milestone_history := history' }, none)
      else
        ({ u with tasks := tasks', points := points', milestone_history := history' }, none)
    else
      ({ u with tasks := tasks' }, none)

/-! ## Sync merger (src/main.py `_sync_shared_tasks` lines 111-122 and
`_sync_cloud_tasks` lines 128-141; both use the identical merge) -/

/-- `task_dict[t.id] = t` on an insertion-ordered dict. -/
def dictInsert (d : List (String × Task)) (t : Task) : List (String × Task) :=
  match d with
  | [] => [(t.id, t)]
  | (k, v) :: rest =>
    if k == t.id then (k, t) :: rest else (k, v) :: dictInsert rest t

/-- `list(task_dict.keys())`. -/
def dictKeys (d : List (String × Task)) : List String := d.map Prod.fst

/-- The merge of `_sync_shared_tasks` / `_sync_cloud_tasks`:
`task_dict = {t.id: t for t in current}` then
`for task in external: task_dict[task.id] = task` then
`list(task_dict.values())`. -/
def mergeTasks (current ext : List Task) : List Task :=
  (ext.foldl dictInsert (current.foldl dictInsert [])).map Prod.snd

/-- Spec-side description of the merge on one current task: the
same-id external task if one exists, else the task itself. -/
def overrideBy (ext : List Task) (t : Task) : Task :=
  (ext.find? (fun e => e.id == t.id)).getD t

/-- Spec-side description of the appended external-only tasks. -/
def newFrom (current ext : List Task) : List Task :=
  ext.filter (fun e => !(current.any (fun t => t.id == e.id)))

/-! ## Recurrence sweep (src/main.py `TaskManager.run` lines 763-774) -/

/-- The sweep condition of lines 764-765: the loop iterates over
`[t for t in tasks if t.recurring != "none"]` and inside checks
`task.completed and datetime.now() > due_date`. -/
def qualifies (now : Int) (t : Task) : Bool :=
  t.recurring != "none" && t.completed && decide (t.due_date < now)

/-- Line 771: the original task object is reset in place when it
qualifies, otherwise untouched. -/
def resetIfQualifies (now : Int) (t : Task) : Task :=
  if qualifies now t then { t with completed := false } else t

/-- Lines 766-769: `Task(**vars(task))` then a fresh uuid, `completed =
False`, and due date shifted by 1 day if daily else 7 days. -/
def cloneOf (freshId : String) (t : Task) : Task :=
  { t with id := freshId, completed := false, due_date := t.due_date + (if t.recurring == "daily" then oneDay else 7 * oneDay) }

/-- The loop body of lines 764-772, processing the snapshot in list
order: returns the in-place-updated originals and the clones appended
during the iteration (in order), with `k` counting clones already made
so each clone draws the next fresh id. -/
def sweepGo (now : Int) (freshIds : Nat → String) : Nat → List Task → List Task × List Task
  | _, [] => ([], [])
  | k, t :: rest =>
    if qualifies now t then
      let r := sweepGo now freshIds (k + 1) rest
      ({ t with completed := false } :: r.1, cloneOf (freshIds k) t :: r.2)
    else
      let r := sweepGo now freshIds k rest
      (t :: r.1, r.2)

/-- The full post-command recurrence sweep of lines 763-774: the final
task list (originals in place, clones appended at the end) together
with the `changed` flag that gates the `_save_tasks()` call. -/
def recurrenceSweep (now : Int) (freshIds : Nat → String) (tasks : List Task) : List Task × Bool :=
  let r := sweepGo now freshIds 0 tasks
  (r.1 ++ r.2, !r.2.isEmpty)

/-! ## Add task (src/main.py `TaskManager.add_task` lines 183-238) -/

/-- The user-entered fields of `task_data` (lines 195-205), already
parsed (a Python `ValueError` from `int(...)`/`float(...)` aborts the
same way as the explicit validation below). -/
structure AddInput where
  title : String
  description : String
  priority : String
  due_date : Int
  category : String
  progress : Int
  effort_hours : Int
  dependencies : List String
  recurring : String

/-- The validation of line 206:
`0 <= progress <= 100 and priority in [low, medium, high] and recurring
in [none, daily, weekly]`. -/
def addValid (inp : AddInput) : Bool :=
  (decide (0 ≤ inp.progress) && decide (inp.progress ≤ 100))
    && (["low", "medium", "high"] : List String).contains inp.priority
    && (["none", "daily", "weekly"] : List String).contains inp.recurring

/-- `TaskManager.add_task` up to the first save (lines 195-211): on
valid input the new task is appended and `_save_tasks` runs (second
component `true`); on the `ValueError` path nothing is appended, no
save happens, and the error message is shown (third component). -/
def add_task (freshId : String) (now : Int) (inp : AddInput) (tasks : List Task) :
    List Task × Bool × Option String :=
  if addValid inp then
    (tasks ++ [{ id := freshId, title := inp.title, description := inp.description, priority := inp.priority, due_date := inp.due_date, category := inp.category, completed := false, created_at := now, progress := inp.progress, effort_hours := inp.effort_hours, dependencies := inp.dependencies, recurring := inp.recurring }], true, none)
  else
    (tasks, false, some "Invalid input: Check progress, priority, or recurrence.")

/-! ## Delete / undo (src/main.py lines 299-323) -/

/-- The mutable state touched by delete/undo: the current user's task
list and the manager's `undo_stack` (a Python list used with
`append`/`pop`, i.e. push/pop at the right end). -/
structure MState where
  tasks : List Task
  undo_stack : List Task
deriving DecidableEq

/-- `TaskManager.delete_task` (lines 299-312): the first task with the
given id is pushed on the undo stack and every task with that id is
removed from the list; an unknown id changes nothing. -/
def delete_task (task_id : String) (s : MState) : MState :=
  match findTask s.tasks task_id with
  | none => s
  | some t =>
    { tasks := s.tasks.filter (fun t' => !(t'.id == task_id)), undo_stack := s.undo_stack ++ [t] }

/-- `TaskManager.undo_delete` (lines 314-323): `undo_stack.pop()`
removes the most recently pushed task and appends it back to the task
list; an empty stack changes nothing. -/
def undo_delete (s : MState) : MState :=
  match s.undo_stack.getLast? with
  | none => s
  | some t => { tasks := s.tasks ++ [t], undo_stack := s.undo_stack.dropLast }

/-! ## Due-soon notifier (src/main.py `notify_tasks` lines 541-547) -/

/-- The alert string enqueued for a task (line 546, color codes
omitted). -/
def alertMsg (t : Task) : String :=
  "Alert: Task " ++ t.title ++ " due in 1 hour!"

/-- One 5-minute poll pass of `notify_tasks`: for every incomplete task,
if `(due - now).total_seconds() <= 3600` the alert is enqueued; the
result is the queue content produced by the pass, in task-list order. -/
def notify_poll (now : Int) (tasks : List Task) : List String :=
  (tasks.filter (fun t => !t.completed)).filterMap
    (fun t => if t.due_date - now ≤ 3600 then some (alertMsg t) else none)

/-! ## Save recursion (src/main.py `_save_tasks` lines 92-95 and
`_sync_shared_tasks` lines 111-122) -/

/-- The filesystem facts `_save_tasks` consults: whether
`shared_tasks.json` exists and, if so, the task list it holds.  The
file is never written during the save recursion (nothing in the
recursion calls `_save_shared_tasks`), so the world is constant. -/
structure World where
  sharedExists : Bool
  sharedTasks : List Task

/-- `_save_tasks` with an explicit unfolding budget: each pass writes
users and a backup, then `_sync_shared_tasks` either no-ops (file
absent, the pass completes with the current tasks) or merges the shared
file in and calls `_save_tasks` again on the merged list.  `none` means
the budget ran out before the call returned. -/
def save_tasks_fuel : Nat → World → List Task → Option (List Task)
  | 0, _, _ => none
  | fuel + 1, w, tasks =>
    if w.sharedExists then save_tasks_fuel fuel w (mergeTasks tasks w.sharedTasks)
    else some tasks

/-! ## Filter / search and the display call (src/main.py lines 160,
413-419, 436-446) -/

/-- Whether the first character list starts the second. -/
def prefixScan : List Char → List Char → Bool
  | [], _ => true
  | _ :: _, [] => false
  | a :: as, b :: bs => a == b && prefixScan as bs

/-- Whether the first character list occurs inside the second. -/
def infixScanChars (needle : List Char) : List Char → Bool
  | [] => needle.isEmpty
  | c :: t => prefixScan needle (c :: t) || infixScanChars needle t

/-- Python substring test `needle in hay`. -/
def strContains (hay needle : String) : Bool :=
  infixScanChars needle.toList hay.toList

/-- A keyword argument passed to `display_tasks` at a call site. -/
inductive KwArg where
  | page (n : Nat)
  | page_size (n : Nat)
  | tasks (l : List Task)

/-- The name under which a keyword argument is passed. -/
def kwargName : KwArg → String
  | .page _ => "page"
  | .page_size _ => "page_size"
  | .tasks _ => "tasks"

/-- The parameter names of `display_tasks(self, page: int = 1,
page_size: int = 5)` (src/main.py line 160). -/
def display_tasks_paramNames : List String := ["page", "page_size"]

/-- Python call binding for `display_tasks`: a keyword argument whose
name is not a parameter raises `TypeError` before the body runs. -/
def callDisplayTasks (args : List KwArg) : Except String Unit :=
  if args.all (fun a => display_tasks_paramNames.contains (kwargName a)) then .ok ()
  else .error "TypeError: display_tasks got an unexpected keyword argument"

/-- `TaskManager.filter_tasks` (lines 413-419): builds the filtered
list, then calls `self.display_tasks(page=1, tasks=filtered)`.  Returns
the task list afterwards (never reassigned) and the outcome of the
display call. -/
def filter_tasks (category : String) (tasks : List Task) : List Task × Except String Unit :=
  let filtered := tasks.filter (fun t => strContains t.category.toLower category.toLower)
  (tasks, callDisplayTasks [KwArg.page 1, KwArg.tasks filtered])

/-- `TaskManager.search_tasks` (lines 436-446): the comprehension
condition is `kw in title or (kw in description and inStart and inEnd)`
(Python `or` binds looser than `and`); then
`self.display_tasks(page=1, tasks=results)`. -/
def search_tasks (keyword : String) (startD endD : Option Int) (tasks : List Task) :
    List Task × Except String Unit :=
  let results := tasks.filter (fun t =>
    strContains t.title.toLower keyword.toLower
      || (strContains t.description.toLower keyword.toLower
          && (match startD with | none => true | some s => decide (s ≤ t.due_date))
          && (match endD with | none => true | some e => decide (t.due_date ≤ e))))
  (tasks, callDisplayTasks [KwArg.page 1, KwArg.tasks results])

/-! ## Concrete instances used in witnesses and counterexamples -/

/-- A task with the dataclass defaults, used to build concrete examples. -/
def baseTask (i ti : String) : Task :=
  { id := i, title := ti, description := "", priority := "low", due_date := 0, category := "general", completed := false, created_at := 0, progress := 0, effort_hours := 1, dependencies := [], recurring := "none" }

/-- A user with no points and no history, used to build concrete examples. -/
def mkUser (ts : List Task) : User :=
  { username := "u", password_hash := "p", tasks := ts, points := 0, avatar := "", milestone_history := [] }

/-- A completed, overdue task whose `recurring` field holds the
unrecognized value `"monthly"` (reachable: `edit_task` line 289 and
`import_tasks` set `recurring` without validation). -/
def tMonthly : Task :=
  { baseTask "m" "monthly report" with recurring := "monthly", completed := true, due_date := 0 }

def t2a : Task := baseTask "1" "a"

def t2b : Task := baseTask "2" "b"

def t2c : Task := baseTask "2" "c"

def t2d : Task := baseTask "3" "d"

/-- A high-priority task due at time 100. -/
def tH : Task := { baseTask "h" "hi" with priority := "high", due_date := 100 }

def uH : User := mkUser [tH]

/-- A low-priority task due at time 0 (overdue at time 10). -/
def tL : Task := baseTask "l" "lo"

def uL : User := mkUser [tL]

def t4 : Task := baseTask "4" "next"

/-- A user who has already crossed the 50-point milestone: 50 points and
the milestone record in history. -/
def u4 : User :=
  { mkUser [t4] with points := 50, milestone_history := [HistoryEntry.milestone 50 0] }

def t5 : Task := baseTask "5" "five"

def u5 : User := mkUser [t5]

/-- An add-task input with `progress = 150` (outside `[0, 100]`). -/
def inpBad : AddInput :=
  { title := "x", description := "", priority := "low", due_date := 0, category := "general", progress := 150, effort_hours := 1, dependencies := [], recurring := "none" }

def t71 : Task := baseTask "1" "first"

def t72 : Task := baseTask "2" "second"

def s70 : MState := { tasks := [t71, t72], undo_stack := [] }

/-- An incomplete task two hours past due at time 7200. -/
def t8 : Task := baseTask "8" "overdue"

/-! ## Helper lemmas -/

theorem find?_filter_of_imp {α : Type} (l : List α) (p q : α → Bool)
    (h : ∀ x, q x = true → p x = true) : (l.filter p).find? q = l.find? q := by
  induction l with
  | nil => rfl
  | cons a rest ih =>
    by_cases hq : q a = true
    · rw [List.filter_cons, if_pos (h a hq)]
      rw [List.find?_cons_of_pos _ hq, List.find?_cons_of_pos _ hq]
    · by_cases hp : p a = true
      · rw [List.filter_cons, if_pos hp]
        rw [List.find?_cons_of_neg _ hq, List.find?_cons_of_neg _ hq, ih]
      · rw [List.filter_cons, if_neg hp, List.find?_cons_of_neg _ hq, ih]

theorem flipCompleted_id (s : Task) : (flipCompleted s).id = s.id := rfl

theorem flipCompleted_flipCompleted (s : Task) : flipCompleted (flipCompleted s) = s := by
  simp [flipCompleted]

theorem findTask_updateFirst (tasks : List Task) (task_id : String) (f : Task → Task)
    (hf : ∀ s, (f s).id = s.id) :
    findTask (updateFirst tasks task_id f) task_id = (findTask tasks task_id).map f := by
  induction tasks with
  | nil => rfl
  | cons t rest ih =>
    simp only [updateFirst, findTask] at ih ⊢
    by_cases h : (t.id == task_id) = true
    · rw [if_pos h]
      have h' : ((f t).id == task_id) = true := by rw [hf t]; exact h
      rw [@List.find?_cons_of_pos _ (fun x => x.id == task_id) (f t) rest h']
      rw [@List.find?_cons_of_pos _ (fun x => x.id == task_id) t rest h]
      rfl
    · rw [if_neg h]
      rw [@List.find?_cons_of_neg _ (fun x => x.id == task_id) t (updateFirst rest task_id f) h]
      rw [@List.find?_cons_of_neg _ (fun x => x.id == task_id) t rest h]
      exact ih

theorem updateFirst_updateFirst (tasks : List Task) (task_id : String) (f g : Task → Task)
    (hf : ∀ s, (f s).id = s.id) :
    updateFirst (updateFirst tasks task_id f) task_id g = updateFirst tasks task_id (fun s => g (f s)) := by
  induction tasks with
  | nil => rfl
  | cons t rest ih =>
    by_cases h : (t.id == task_id) = true
    · simp only [updateFirst, if_pos h]
      rw [if_pos (show (((f t).id == task_id) = true) by rw [hf t]; exact h)]
    · simp only [updateFirst, if_neg h]
      rw [ih]

theorem updateFirst_congr (tasks : List Task) (task_id : String) (f g : Task → Task)
    (h : ∀ s, f s = g s) :
    updateFirst tasks task_id f = updateFirst tasks task_id g := by
  induction tasks with
  | nil => rfl
  | cons t rest ih =>
    simp only [updateFirst]
    split
    · rw [h t]
    · rw [ih]

theorem updateFirst_id (tasks : List Task) (task_id : String) :
    updateFirst tasks task_id (fun s => s) = tasks := by
  induction tasks with
  | nil => rfl
  | cons t rest ih =>
    simp only [updateFirst]
    split <;> simp [ih]

theorem toggle_on_shape (now : Int) (task_id : String) (u : User) (t : Task)
    (hfind : findTask u.tasks task_id = some t) (hnc : t.completed = false) :
    ∃ rest,
      (toggle_complete now task_id u).1.username = u.username
      ∧ (toggle_complete now task_id u).1.password_hash = u.password_hash
      ∧ (toggle_complete now task_id u).1.avatar = u.avatar
      ∧ (toggle_complete now task_id u).1.tasks = updateFirst u.tasks task_id flipCompleted
      ∧ (toggle_complete now task_id u).1.points = u.points + _calculate_points now t
      ∧ (toggle_complete now task_id u).1.milestone_history = (u.milestone_history ++ [completionRecord now t]) ++ rest := by
  unfold toggle_complete
  rw [hfind]
  dsimp only
  rw [hnc]
  simp only [Bool.not_false, if_true]
  by_cases h50 : (50 : Int) ≤ u.points + _calculate_points now t
  · rw [if_pos h50]
    cases hany : anyPointsEq50 (u.milestone_history ++ [completionRecord now t]) with
    | error msg => exact ⟨[], rfl, rfl, rfl, rfl, rfl, by simp⟩
    | ok b =>
      cases b with
      | false => exact ⟨[HistoryEntry.milestone 50 now], rfl, rfl, rfl, rfl, rfl, rfl⟩
      | true => exact ⟨[], rfl, rfl, rfl, rfl, rfl, by simp⟩
  · rw [if_neg h50]
    exact ⟨[], rfl, rfl, rfl, rfl, rfl, by simp⟩

theorem delete_task_found (task_id : String) (s : MState) (t : Task)
    (h : findTask s.tasks task_id = some t) :
    delete_task task_id s
      = { tasks := s.tasks.filter (fun x => !(x.id == task_id)), undo_stack := s.undo_stack ++ [t] } := by
  unfold delete_task
  rw [h]

theorem undo_pop (s : MState) (t : Task) (stack : List Task)
    (h : s.undo_stack = stack ++ [t]) :
    undo_delete s = { tasks := s.tasks ++ [t], undo_stack := stack } := by
  unfold undo_delete
  rw [h, List.getLast?_concat, List.dropLast_concat]

/-! ## Claim theorems -/

/-- C10: for every program state and user input, `filter_tasks` and
`search_tasks` pass `display_tasks` the keyword argument `tasks`, which
its signature `(page, page_size)` does not accept, so both raise
`TypeError` before rendering anything, and both leave the task list
unmodified. -/
theorem filter_search_c10 (category keyword : String) (startD endD : Option Int)
    (tasks : List Task) :
    filter_tasks category tasks = (tasks, Except.error "TypeError: display_tasks got an unexpected keyword argument")
    ∧ search_tasks keyword startD endD tasks = (tasks, Except.error "TypeError: display_tasks got an unexpected keyword argument") :=
  ⟨rfl, rfl⟩

/-- C9: when the shared-tasks file exists, `_save_tasks` recurses into
itself through `_sync_shared_tasks` with no decreasing measure: no
finite unfolding budget suffices for the call to return.  When the file
is absent, one save/backup pass completes and returns the task list
unchanged. -/
theorem save_termination_c9 (w : World) (tasks : List Task) :
    (w.sharedExists = true → ∀ fuel, save_tasks_fuel fuel w tasks = none)
    ∧ (w.sharedExists = false → ∀ fuel, save_tasks_fuel (fuel + 1) w tasks = some tasks) := by
  constructor
  · intro hw fuel
    induction fuel generalizing tasks with
    | zero => rfl
    | succ n ih => simp only [save_tasks_fuel, hw, if_true]; exact ih _
  · intro hw fuel
    simp [save_tasks_fuel, hw]

/-- Witness for C9 at concrete worlds and fuel values. -/
theorem save_termination_c9_witness :
    save_tasks_fuel 5 { sharedExists := true, sharedTasks := [] } [] = none
    ∧ save_tasks_fuel 1 { sharedExists := false, sharedTasks := [] } [] = some [] :=
  ⟨(save_termination_c9 { sharedExists := true, sharedTasks := [] } []).1 rfl 5,
   (save_termination_c9 { sharedExists := false, sharedTasks := [] } []).2 rfl 0⟩

/-- C6: an add-task input with `progress` outside `[0, 100]`, or a
priority outside low/medium/high, or a recurrence outside
none/daily/weekly, is rejected: the task list is unchanged, no save
runs, and the `ValueError` message is shown. -/
theorem add_validation_c6 (freshId : String) (now : Int) (inp : AddInput) (tasks : List Task)
    (h : ¬ (0 ≤ inp.progress ∧ inp.progress ≤ 100)
        ∨ inp.priority ∉ (["low", "medium", "high"] : List String)
        ∨ inp.recurring ∉ (["none", "daily", "weekly"] : List String)) :
    add_task freshId now inp tasks = (tasks, false, some "Invalid input: Check progress, priority, or recurrence.") := by
  have hv : addValid inp = false := by
    apply Bool.eq_false_iff.mpr
    intro htrue
    simp only [addValid, Bool.and_eq_true, decide_eq_true_eq] at htrue
    obtain ⟨⟨⟨h1, h2⟩, h3⟩, h4⟩ := htrue
    rcases h with h | h | h
    · exact h ⟨h1, h2⟩
    · exact h (by simpa using h3)
    · exact h (by simpa using h4)
  simp [add_task, hv]

/-- Witness for C6: `progress = 150` is rejected with no append. -/
theorem add_validation_c6_witness :
    add_task "x" 0 inpBad [] = ([], false, some "Invalid input: Check progress, priority, or recurrence.") :=
  add_validation_c6 "x" 0 inpBad [] (Or.inl (by decide))

/-- C8 counterexample: a task two hours past due and incomplete is
alerted by the poll (the claim says a past-due task is never alerted:
the alert list for it would have to be empty). -/
theorem notify_c8_cex :
    notify_poll 7200 [t8] = [alertMsg t8]
    ∧ t8.completed = false ∧ t8.due_date < 7200 ∧ notify_poll 7200 [t8] ≠ [] := by
  refine ⟨rfl, rfl, by decide, ?_⟩
  decide

/-- C8 amended: each poll pass alerts exactly the incomplete tasks with
`due_date - now ≤ 3600` — within one hour of due or already past due;
past-due incomplete tasks keep being re-alerted. -/
theorem notify_c8_amended (now : Int) (tasks : List Task) :
    notify_poll now tasks
      = (tasks.filter (fun t => !t.completed && decide (t.due_date - now ≤ 3600))).map alertMsg := by
  induction tasks with
  | nil => rfl
  | cons t rest ih =>
    simp only [notify_poll] at ih ⊢
    cases hc : t.completed <;>
      cases hd : decide (t.due_date - now ≤ 3600) <;>
        simp_all [List.filter_cons, List.filterMap_cons, decide_eq_true_eq]

/-- C7 counterexample: after deleting task 1 then task 2, two undo
calls restore both tasks — the earlier deletion (task 1) is restored,
contradicting the claim that only the most recent deletion is
restorable. -/
theorem undo_c7_cex :
    undo_delete (undo_delete (delete_task "2" (delete_task "1" s70)))
      = { tasks := [t72, t71], undo_stack := [] }
    ∧ t71 ∈ (undo_delete (undo_delete (delete_task "2" (delete_task "1" s70)))).tasks := by
  constructor
  · rfl
  · decide

/-- C7 amended: delete pushes the deleted task on an unbounded stack
and each undo restores the most recently deleted not-yet-restored task,
so a delete/delete/undo/undo sequence restores both tasks (in reverse
deletion order at the end of the list) and returns the stack to its
prior state. -/
theorem undo_c7_amended (s : MState) (a b : String) (ta tb : Task)
    (hab : a ≠ b) (ha : findTask s.tasks a = some ta) (hb : findTask s.tasks b = some tb) :
    undo_delete (undo_delete (delete_task b (delete_task a s)))
      = { tasks := ((s.tasks.filter (fun x => !(x.id == a))).filter (fun x => !(x.id == b))) ++ [tb, ta], undo_stack := s.undo_stack } := by
  have hb' : findTask (s.tasks.filter (fun x => !(x.id == a))) b = some tb := by
    rw [findTask, find?_filter_of_imp]
    · exact hb
    · intro x hx
      simp only [beq_iff_eq] at hx ⊢
      simp [hx, hab.symm]
  have h2 : delete_task b (delete_task a s)
      = { tasks := (s.tasks.filter (fun x => !(x.id == a))).filter (fun x => !(x.id == b)), undo_stack := (s.undo_stack ++ [ta]) ++ [tb] } := by
    rw [delete_task_found a s ta ha]
    exact delete_task_found b _ tb hb'
  have h3 := undo_pop { tasks := (s.tasks.filter (fun x => !(x.id == a))).filter (fun x => !(x.id == b)), undo_stack := (s.undo_stack ++ [ta]) ++ [tb] } tb (s.undo_stack ++ [ta]) rfl
  rw [h2, h3]
  rw [undo_pop _ ta s.undo_stack rfl]
  simp

/-- Witness for C7 amended at a concrete two-task state. -/
theorem undo_c7_witness :
    undo_delete (undo_delete (delete_task "2" (delete_task "1" { tasks := [t71, t72], undo_stack := [t72] })))
      = { tasks := [t72, t71], undo_stack := [t72] } := by
  have h := undo_c7_amended { tasks := [t71, t72], undo_stack := [t72] } "1" "2" t71 t72 (by decide) rfl rfl
  rw [h]
  rfl

/-- C4 (code bug): once the 50-point milestone record is in
`milestone_history` and the running total is at least 50, the next
completion evaluates `m["points"]` on the milestone record inside the
duplicate-check generator and raises `KeyError: 'points'` — the session
crashes instead of quietly never appending a second record. -/
theorem milestone_c4_keyerror :
    (toggle_complete 1 "4" u4).2 = some "KeyError: points"
    ∧ (toggle_complete 1 "4" u4).1.milestone_history
        = [HistoryEntry.milestone 50 0, completionRecord 1 t4]
    ∧ (toggle_complete 1 "4" u4).1.points = 60 := by
  refine ⟨rfl, rfl, by decide⟩

/-- C3: completing a task (completed flag false → true) awards exactly
10 base points plus 5 for high priority plus 5 for on-time completion,
adds the award to the user's total, and appends a completion record to
`milestone_history`. -/
theorem points_c3 (now : Int) (task_id : String) (u : User) (t : Task)
    (hfind : findTask u.tasks task_id = some t) (hnc : t.completed = false) :
    (toggle_complete now task_id u).1.points
        = u.points + (10 + (if t.priority == "high" then 5 else 0) + (if now ≤ t.due_date then 5 else 0))
    ∧ ∃ rest, (toggle_complete now task_id u).1.milestone_history
        = (u.milestone_history ++ [completionRecord now t]) ++ rest := by
  obtain ⟨rest, _, _, _, _, hp, hh⟩ := toggle_on_shape now task_id u t hfind hnc
  refine ⟨?_, rest, hh⟩
  rw [hp]
  rfl

/-- Witness for C3: a high-priority task completed before its due date
scores exactly 20; a low-priority task completed after its due date
scores exactly 10. -/
theorem points_c3_witness :
    (toggle_complete 0 "h" uH).1.points = 20 ∧ (toggle_complete 10 "l" uL).1.points = 10 := by
  have h1 := (points_c3 0 "h" uH tH rfl rfl).1
  have h2 := (points_c3 10 "l" uL tL rfl rfl).1
  rw [h1, h2]
  constructor <;> decide

/-- C5: toggling a task's completion twice (false → true → false)
restores the completed flag (the whole task list, in fact) while the
user keeps exactly one award: the second toggle neither subtracts
points nor removes the completion record from history. -/
theorem toggle_twice_c5 (now1 now2 : Int) (task_id : String) (u : User) (t : Task)
    (hfind : findTask u.tasks task_id = some t) (hnc : t.completed = false) :
    (toggle_complete now2 task_id (toggle_complete now1 task_id u).1).1.tasks = u.tasks
    ∧ (toggle_complete now2 task_id (toggle_complete now1 task_id u).1).1.points = u.points + _calculate_points now1 t
    ∧ ∃ rest, (toggle_complete now2 task_id (toggle_complete now1 task_id u).1).1.milestone_history = (u.milestone_history ++ [completionRecord now1 t]) ++ rest := by
  obtain ⟨rest, hus, hpw, hav, hts, hp, hh⟩ := toggle_on_shape now1 task_id u t hfind hnc
  set u1 := (toggle_complete now1 task_id u).1 with hu1
  have hfind2 : findTask u1.tasks task_id = some (flipCompleted t) := by
    rw [hts, findTask_updateFirst u.tasks task_id flipCompleted flipCompleted_id, hfind]
    rfl
  have hc : (flipCompleted t).completed = true := by
    simp [flipCompleted, hnc]
  have hres : toggle_complete now2 task_id u1 = ({ u1 with tasks := updateFirst u1.tasks task_id flipCompleted }, none) := by
    unfold toggle_complete
    rw [hfind2]
    dsimp only
    rw [hc]
    rfl
  rw [hres]
  dsimp only
  refine ⟨?_, ?_, rest, ?_⟩
  · rw [hts, updateFirst_updateFirst u.tasks task_id flipCompleted flipCompleted flipCompleted_id]
    rw [updateFirst_congr u.tasks task_id (fun s => flipCompleted (flipCompleted s)) (fun s => s) (fun s => flipCompleted_flipCompleted s)]
    exact updateFirst_id u.tasks task_id
  · exact hp
  · exact hh

/-- Witness for C5 at a concrete one-task user. -/
theorem toggle_twice_c5_witness :
    (toggle_complete 1 "5" (toggle_complete 0 "5" u5).1).1.tasks = u5.tasks
    ∧ (toggle_complete 1 "5" (toggle_complete 0 "5" u5).1).1.points = u5.points + _calculate_points 0 t5 := by
  have h := toggle_twice_c5 0 1 "5" u5 t5 rfl rfl
  exact ⟨h.1, h.2.1⟩


theorem contains_append_str (A B : List String) (y : String) :
    (A ++ B).contains y = (A.contains y || B.contains y) := by
  simp [List.contains_eq_any_beq, List.any_append]

theorem dictInsert_fresh (d : List (String × Task)) (t : Task) (h : t.id ∉ dictKeys d) :
    dictInsert d t = d ++ [(t.id, t)] := by
  induction d with
  | nil => rfl
  | cons p rest ih =>
    obtain ⟨k, v⟩ := p
    simp only [dictKeys, List.map_cons, List.mem_cons, not_or] at h
    simp only [dictInsert]
    rw [if_neg (by simp [beq_eq_false_iff_ne]; exact fun he => h.1 he.symm)]
    rw [ih (by simpa [dictKeys] using h.2)]
    simp

theorem dictKeys_append (d e : List (String × Task)) :
    dictKeys (d ++ e) = dictKeys d ++ dictKeys e := by
  simp [dictKeys]

theorem dictInsert_present (d : List (String × Task)) (e : Task)
    (hk : e.id ∈ dictKeys d) (hnd : (dictKeys d).Nodup) :
    dictInsert d e = d.map (fun p => if p.1 == e.id then (p.1, e) else p) := by
  induction d with
  | nil => simp [dictKeys] at hk
  | cons p rest ih =>
    obtain ⟨k, v⟩ := p
    simp only [dictKeys, List.map_cons, List.mem_cons] at hk
    simp only [dictKeys, List.map_cons, List.nodup_cons] at hnd
    simp only [dictInsert, List.map_cons]
    by_cases hke : (k == e.id) = true
    · rw [if_pos hke, if_pos hke]
      have hek : e.id = k := (beq_iff_eq.mp hke).symm
      have : List.map (fun p => if p.1 == e.id then (p.1, e) else p) rest = rest := by
        have hcong : ∀ p ∈ rest, (fun p => if p.1 == e.id then (p.1, e) else p) p = (fun p => p) p := by
          intro p hp
          have hp1 : p.1 ∈ dictKeys rest := by
            simp [dictKeys]
            exact ⟨p.2, by simpa using hp⟩
          have : ¬ (p.1 == e.id) = true := by
            rw [beq_iff_eq]
            intro hcontr
            apply hnd.1
            rw [← hek, ← hcontr]
            simpa [dictKeys] using hp1
          simp [this]
        rw [List.map_congr_left hcong, List.map_id']
      rw [this]
    · rw [if_neg hke, if_neg hke]
      have hek : e.id ∈ dictKeys rest := by
        rcases hk with hk | hk
        · exact absurd (by rw [beq_iff_eq]; exact hk.symm) hke
        · exact hk
      rw [ih hek hnd.2]

theorem dictKeys_dictInsert_present (d : List (String × Task)) (e : Task)
    (hk : e.id ∈ dictKeys d) (hnd : (dictKeys d).Nodup) :
    dictKeys (dictInsert d e) = dictKeys d := by
  rw [dictInsert_present d e hk hnd]
  simp only [dictKeys, List.map_map]
  apply List.map_congr_left
  intro p hp
  by_cases hc : (p.1 == e.id) = true <;> simp [Function.comp, hc]

theorem merge_build (current : List Task) :
    ∀ (d : List (String × Task)), (dictKeys d ++ current.map Task.id).Nodup →
      current.foldl dictInsert d = d ++ current.map (fun t => (t.id, t)) := by
  induction current with
  | nil => intro d _; simp
  | cons t rest ih =>
    intro d hnd
    have hmem : t.id ∉ dictKeys d := by
      rw [List.nodup_append] at hnd
      exact fun hm => hnd.2.2 hm (by simp)
    have hx : (dictKeys (d ++ [(t.id, t)]) ++ rest.map Task.id).Nodup := by
      rw [dictKeys_append]
      have h1 : dictKeys [(t.id, t)] = [t.id] := rfl
      rw [h1, List.append_assoc]
      simpa using hnd
    rw [List.foldl_cons, dictInsert_fresh d t hmem, ih _ hx]
    simp

theorem contains_true_of_mem (A : List String) (y : String) (h : y ∈ A) :
    A.contains y = true :=
  List.elem_iff.mpr h

theorem contains_false_of_not_mem (A : List String) (y : String) (h : y ∉ A) :
    A.contains y = false := by
  cases hc : A.contains y
  · rfl
  · exact absurd (List.elem_iff.mp hc) h

theorem merge_fold_ext (ext : List Task) :
    ∀ (d : List (String × Task)), (dictKeys d).Nodup → (ext.map Task.id).Nodup →
      ext.foldl dictInsert d
        = d.map (fun p => (p.1, (ext.find? (fun e => e.id == p.1)).getD p.2))
          ++ (ext.filter (fun e => !((dictKeys d).contains e.id))).map (fun e => (e.id, e)) := by
  induction ext with
  | nil =>
    intro d _ _
    simp
  | cons e rest ih =>
    intro d hd hext
    simp only [List.map_cons, List.nodup_cons] at hext
    have heid : e.id ∉ rest.map Task.id := hext.1
    have hfe : rest.find? (fun x => x.id == e.id) = none := by
      apply List.find?_eq_none.mpr
      intro x hx hbeq
      exact heid (beq_iff_eq.mp hbeq ▸ List.mem_map_of_mem Task.id hx)
    rw [List.foldl_cons]
    by_cases he : e.id ∈ dictKeys d
    · have hkd : dictKeys (dictInsert d e) = dictKeys d := dictKeys_dictInsert_present d e he hd
      rw [ih (dictInsert d e) (by rw [hkd]; exact hd) hext.2, hkd]
      rw [dictInsert_present d e he hd, List.map_map]
      congr 1
      · apply List.map_congr_left
        intro p hp
        by_cases hc : (p.1 == e.id) = true
        · have hpe : p.1 = e.id := beq_iff_eq.mp hc
          have hhead : ((fun x => x.id == p.1) e) = true := by
            simp only [beq_iff_eq]
            exact hpe.symm
          simp only [Function.comp]
          rw [if_pos hc]
          dsimp only
          rw [@List.find?_cons_of_pos _ (fun x => x.id == p.1) e rest hhead]
          rw [hpe, hfe]
          rfl
        · have hhead : ¬ ((fun x => x.id == p.1) e) = true := by
            simp only [beq_iff_eq]
            intro hcontr
            exact hc (by rw [beq_iff_eq]; exact hcontr.symm)
          simp only [Function.comp]
          rw [if_neg hc]
          rw [@List.find?_cons_of_neg _ (fun x => x.id == p.1) e rest hhead]
      · rw [List.filter_cons]
        have hcf : (!((dictKeys d).contains e.id)) = false := by
          rw [contains_true_of_mem _ _ he]
          rfl
        rw [hcf]
        simp
    · have hkd : dictKeys (dictInsert d e) = dictKeys d ++ [e.id] := by
        rw [dictInsert_fresh d e he, dictKeys_append]
        rfl
      have hnd' : (dictKeys (dictInsert d e)).Nodup := by
        rw [hkd, List.nodup_append]
        refine ⟨hd, List.nodup_singleton _, ?_⟩
        intro y hy hymem
        simp only [List.mem_singleton] at hymem
        exact he (hymem ▸ hy)
      rw [ih (dictInsert d e) hnd' hext.2, hkd]
      rw [dictInsert_fresh d e he]
      rw [List.map_append]
      have hlast : List.map (fun p => (p.1, (rest.find? (fun x => x.id == p.1)).getD p.2)) [(e.id, e)] = [(e.id, e)] := by
        simp only [List.map_cons, List.map_nil]
        rw [hfe]
        rfl
      rw [hlast]
      have hmapd : List.map (fun p => (p.1, (rest.find? (fun x => x.id == p.1)).getD p.2)) d
          = List.map (fun p => (p.1, ((e :: rest).find? (fun x => x.id == p.1)).getD p.2)) d := by
        apply List.map_congr_left
        intro p hp
        have hpne : ¬ ((fun x => x.id == p.1) e) = true := by
          simp only [beq_iff_eq]
          intro hcontr
          apply he
          rw [hcontr]
          simpa [dictKeys] using List.mem_map_of_mem Prod.fst hp
        rw [@List.find?_cons_of_neg _ (fun x => x.id == p.1) e rest hpne]
      rw [hmapd]
      have hfilter : rest.filter (fun x => !((dictKeys d ++ [e.id]).contains x.id))
          = rest.filter (fun x => !((dictKeys d).contains x.id)) := by
        apply List.filter_congr
        intro x hx
        have hxe : x.id ≠ e.id := by
          intro hcontr
          exact heid (hcontr ▸ List.mem_map_of_mem Task.id hx)
        rw [contains_append_str]
        have : ([e.id].contains x.id) = false := by
          apply contains_false_of_not_mem
          simp [hxe]
        rw [this, Bool.or_false]
      rw [hfilter]
      have hheadf : (!((dictKeys d).contains e.id)) = true := by
        rw [contains_false_of_not_mem _ _ he]
        rfl
      rw [List.filter_cons, hheadf]
      simp

theorem contains_map_id_eq_any (l : List Task) (y : String) :
    ((l.map Task.id).contains y) = (l.any (fun t => t.id == y)) := by
  apply Bool.eq_iff_iff.mpr
  constructor
  · intro hc
    have hmem : y ∈ l.map Task.id := List.elem_iff.mp hc
    obtain ⟨t, ht, hty⟩ := List.mem_map.mp hmem
    exact List.any_eq_true.mpr ⟨t, ht, by rw [beq_iff_eq]; exact hty⟩
  · intro ha
    obtain ⟨t, ht, hty⟩ := List.any_eq_true.mp ha
    exact List.elem_iff.mpr (List.mem_map.mpr ⟨t, ht, beq_iff_eq.mp hty⟩)

/-- C2: under unique task ids, the external-file merge keeps every
current task in place (replaced by the same-id external task when one
exists — external wins unconditionally) and appends the external-only
tasks in the external file's order. -/
theorem merge_c2 (current ext : List Task)
    (h1 : (current.map Task.id).Nodup) (h2 : (ext.map Task.id).Nodup) :
    mergeTasks current ext = current.map (overrideBy ext) ++ newFrom current ext := by
  unfold mergeTasks
  rw [merge_build current [] (by simpa [dictKeys] using h1)]
  rw [List.nil_append]
  have hkeys : dictKeys (current.map (fun t => (t.id, t))) = current.map Task.id := by
    simp [dictKeys, List.map_map, Function.comp]
  rw [merge_fold_ext ext (current.map (fun t => (t.id, t))) (by rw [hkeys]; exact h1) h2]
  rw [List.map_append]
  congr 1
  · rw [List.map_map, List.map_map]
    apply List.map_congr_left
    intro t ht
    rfl
  · rw [hkeys, List.map_map]
    have hfeq : ext.filter (fun e => !((current.map Task.id).contains e.id)) = newFrom current ext := by
      unfold newFrom
      apply List.filter_congr
      intro x hx
      rw [contains_map_id_eq_any]
    rw [hfeq]
    rw [show (Prod.snd ∘ fun e : Task => (e.id, e)) = (fun e : Task => e) from rfl, List.map_id']

/-- Witness for C2: merging current `[(1,a),(2,b)]` with external
`[(2,c),(3,d)]` yields exactly `[(1,a),(2,c),(3,d)]`. -/
theorem merge_c2_witness :
    mergeTasks [t2a, t2b] [t2c, t2d] = [t2a, t2c, t2d] := by
  have h := merge_c2 [t2a, t2b] [t2c, t2d] (by decide) (by decide)
  rw [h]
  decide

theorem sweepGo_spec (now : Int) (freshIds : Nat → String) :
    ∀ (k : Nat) (l : List Task),
      sweepGo now freshIds k l
        = (l.map (resetIfQualifies now),
           (List.enumFrom k (l.filter (qualifies now))).map (fun p => cloneOf (freshIds p.1) p.2)) := by
  intro k l
  induction l generalizing k with
  | nil => rfl
  | cons t rest ih =>
    by_cases h : qualifies now t = true
    · simp [sweepGo, resetIfQualifies, List.filter_cons, h, ih (k + 1), List.enumFrom]
    · simp [sweepGo, resetIfQualifies, List.filter_cons, h, ih k, List.enumFrom]

/-- C1 amended: the sweep fires for every task with `recurring`
different from `"none"` (not only daily/weekly) that is completed and
past due: each such task is reset to pending in place and exactly one
clone per such task is appended, in order, carrying the next fresh id,
`completed = false`, and the due date shifted by +1 day when
`recurring = "daily"` and +7 days for ANY other non-`"none"` value
(weekly or unrecognized); all other tasks are left unchanged, and the
save flag is set exactly when some task qualified. -/
theorem recurrence_c1_amended (now : Int) (freshIds : Nat → String) (tasks : List Task) :
    (recurrenceSweep now freshIds tasks).1
      = tasks.map (resetIfQualifies now)
        ++ (List.enumFrom 0 (tasks.filter (qualifies now))).map (fun p => cloneOf (freshIds p.1) p.2)
    ∧ (recurrenceSweep now freshIds tasks).2 = !(tasks.filter (qualifies now)).isEmpty := by
  have h := sweepGo_spec now freshIds 0 tasks
  constructor
  · simp [recurrenceSweep, h]
  · simp only [recurrenceSweep, h]
    cases tasks.filter (qualifies now) <;> simp [List.enumFrom]

/-- C1 counterexample: a completed, overdue task whose `recurring` is
the unrecognized value `"monthly"` is NOT in {daily, weekly}, so the
claim requires the sweep to leave it unchanged — but the code sweeps
it: the original is reset to pending and a +7-day clone is appended. -/
theorem recurrence_c1_cex :
    (recurrenceSweep 1 (fun _ => "fresh") [tMonthly]).1
      = [{ tMonthly with completed := false }, { tMonthly with id := "fresh", completed := false, due_date := 604800 }]
    ∧ (recurrenceSweep 1 (fun _ => "fresh") [tMonthly]).1 ≠ [tMonthly]
    ∧ tMonthly.recurring = "monthly" ∧ tMonthly.completed = true ∧ tMonthly.due_date < 1 := by
  refine ⟨by decide, by decide, rfl, rfl, by decide⟩

end TaskModel
